import Mathlib

/-!
Verification of the "ice" language front end (lexer + parser + AST) against
its specification.  The definitions below are a shallow embedding of the
Rust sources `src/tokens.rs`, `src/lexer.rs`, `src/ast.rs`, `src/parser.rs`:
pure functions become Lean functions, the `&mut self` cursor state of the
lexer and the parser becomes explicit state passing, and the `while` loops
become fuel-indexed structural recursion (one fuel unit per loop iteration;
every call site passes a fuel value that exceeds the loop's maximal
iteration count, computed from the input length, so the out-of-fuel case is
unreachable there unless the original loop really diverges).

A Rust `panic!` caused by an out-of-bounds slice index is modelled by an
explicit `panic` result value; `Result<T, String>` becomes an `err`/`ok`
result.  Rust's Unicode character classes (`char::is_alphabetic`,
`is_alphanumeric`, `is_numeric`, `is_whitespace`) are modelled by Lean's
ASCII `Char.isAlpha`, `Char.isAlphanum`, `Char.isDigit`, `Char.isWhitespace`;
all inputs considered in the theorems are ASCII, where the two agree.
-/

/-! ## tokens.rs -/

/-- `Location` (tokens.rs lines 3-22).  Field order matches
`Location::new(col, line)`; the lexer starts from `Location::new(1, 1)`. -/
structure Location where
  col : Nat
  line : Nat
  deriving Repr, DecidableEq

/-- `Location::add_line` (tokens.rs lines 14-17). -/
def Location.addLine (_l : Location) (l : Location) : Location :=
  { col := 1, line := l.line + 1 }

/-- `Location::add_col` (tokens.rs lines 19-21). -/
def Location.addCol (l : Location) : Location :=
  { l with col := l.col + 1 }

/-- `impl Display for Location` (tokens.rs lines 24-28). -/
def Location.display (l : Location) : String :=
  "line: " ++ toString l.line ++ ", col: " ++ toString l.col

/-- `TokenKind` (tokens.rs lines 48-70).  The variants `Eq` and `Eq2` are
referenced by `lexer.rs` (lines 75-81) for `=`/`==` although the enum in
the `tokens.rs` snapshot omits them; they are included here so that the
lexer can be embedded as written. -/
inductive TokenKind where
  | EOF
  | Plus
  | Minus
  | Star
  | Slash
  | Inc
  | Decr
  | Colon
  | Semicolon
  | LParen
  | RParen
  | LCurly
  | RCurly
  | Id
  | Int
  | Float
  | String
  | Comma
  | Fn
  | Return
  | Eq
  | Eq2
  deriving Repr, DecidableEq, BEq

/-- `impl Display for TokenKind` (tokens.rs lines 82-108). -/
def kindDisplay : TokenKind → String
  | .EOF => "end of file"
  | .Plus => "+"
  | .Minus => "-"
  | .Star => "*"
  | .Slash => "/"
  | .Inc => "++"
  | .Decr => "decr"
  | .Colon => ":"
  | .Semicolon => ";"
  | .LParen => "("
  | .RParen => ")"
  | .LCurly => "\x7b"
  | .RCurly => "\x7d"
  | .Id => "identifier"
  | .Int => "integer literal"
  | .Float => "float literal"
  | .String => "string literal"
  | .Comma => ","
  | .Fn => "fn"
  | .Return => "return"
  | .Eq => "="
  | .Eq2 => "=="

/-- The derived `Debug` rendering (`{:?}`) of a `TokenKind`: the variant name. -/
def kindDebug : TokenKind → String
  | .EOF => "EOF"
  | .Plus => "Plus"
  | .Minus => "Minus"
  | .Star => "Star"
  | .Slash => "Slash"
  | .Inc => "Inc"
  | .Decr => "Decr"
  | .Colon => "Colon"
  | .Semicolon => "Semicolon"
  | .LParen => "LParen"
  | .RParen => "RParen"
  | .LCurly => "LCurly"
  | .RCurly => "RCurly"
  | .Id => "Id"
  | .Int => "Int"
  | .Float => "Float"
  | .String => "String"
  | .Comma => "Comma"
  | .Fn => "Fn"
  | .Return => "Return"
  | .Eq => "Eq"
  | .Eq2 => "Eq2"

/-- `TokenKind::is_one_of` (tokens.rs lines 73-75). -/
def TokenKind.isOneOf (k : TokenKind) (kinds : List TokenKind) : Bool :=
  kinds.contains k

/-- `TokenKind::is` (tokens.rs lines 77-79). -/
def TokenKind.isKind (k : TokenKind) (kind : TokenKind) : Bool :=
  kind == k

/-- `Token` (tokens.rs lines 30-46). -/
structure Token where
  kind : TokenKind
  literal : String
  location : Location
  deriving Repr, DecidableEq

/-! ## lexer.rs

The `Lexer` struct (lexer.rs lines 3-8) with its four fields.  The result
of a lexer operation is a `LexRes`: `panic` models a Rust panic from an
out-of-bounds index, `err` models `Err(String)`, `oof` marks fuel
exhaustion of the embedding (unreachable at the chosen fuel values). -/

inductive LexRes (α : Type) where
  | oof
  | panic
  | err (msg : String)
  | ok (a : α)
  deriving Repr

structure Lexer where
  src : List Char
  pos : Nat
  location : Location
  tokens : List Token
  deriving Repr

/-- `Lexer::new` (lexer.rs lines 11-18). -/
def Lexer.new (src : String) : Lexer :=
  { src := src.data, pos := 0, location := { col := 1, line := 1 }, tokens := [] }

/-- `Lexer::curr` (lexer.rs lines 201-207): the character at `pos`, or the
NUL character when `pos` is past the end. -/
def Lexer.curr (l : Lexer) : Char :=
  if l.src.length ≤ l.pos then Char.ofNat 0 else l.src.getD l.pos (Char.ofNat 0)

/-- `Lexer::peek` (lexer.rs lines 208-214).  The source checks
`pos >= len` but then reads `src[pos + 1]`; when `pos + 1 = len` that
index is out of bounds, which is a Rust panic — modelled by `none`. -/
def Lexer.peek (l : Lexer) : Option Char :=
  if l.src.length ≤ l.pos then some (Char.ofNat 0) else l.src[l.pos + 1]?

/-- `Lexer::advance` (lexer.rs lines 216-223). -/
def Lexer.advance (l : Lexer) : Lexer :=
  if l.curr = '\n' then
    { l with location := l.location.addLine l.location, pos := l.pos + 1 }
  else
    { l with location := l.location.addCol, pos := l.pos + 1 }

/-- `advance` iterated `n` times. -/
def Lexer.advanceN : Nat → Lexer → Lexer
  | 0, l => l
  | n+1, l => Lexer.advanceN n l.advance

/-- The loop of `Lexer::skip_whitespaces` (lexer.rs lines 248-257); one
fuel unit per iteration. -/
def Lexer.skipWsGo : Nat → Lexer → Lexer
  | 0, l => l
  | n+1, l =>
    if l.pos < l.src.length then
      if l.curr.isWhitespace then Lexer.skipWsGo n l.advance else l
    else l

/-- `Lexer::skip_whitespaces` (lexer.rs lines 248-257).  The loop advances
`pos` every iteration and stops once `pos = src.length`, so
`src.length + 1` fuel always suffices. -/
def Lexer.skipWhitespaces (l : Lexer) : Lexer :=
  Lexer.skipWsGo (l.src.length + 1) l

/-- The inner line-comment loop of `Lexer::skip_comments` (lexer.rs
lines 239-241): `while curr() != '\n' && pos < len`. -/
def Lexer.lineGo : Nat → Lexer → Lexer
  | 0, l => l
  | n+1, l =>
    if l.curr ≠ '\n' ∧ l.pos < l.src.length then Lexer.lineGo n l.advance else l

/-- The inner block-comment loop of `Lexer::skip_comments` (lexer.rs
lines 233-235): `while curr() != '*' && peek() != '/' && pos < len`.
The conjuncts are evaluated left to right with short-circuiting, exactly
as in Rust, so `peek` (which can panic) is only consulted when
`curr() != '*'`. -/
def Lexer.blockGo : Nat → Lexer → LexRes Lexer
  | 0, _ => .oof
  | n+1, l =>
    if l.curr ≠ '*' then
      match l.peek with
      | none => .panic
      | some p =>
        if p ≠ '/' then
          if l.pos < l.src.length then Lexer.blockGo n l.advance else .ok l
        else .ok l
    else .ok l

/-- The outer loop of `Lexer::skip_comments` (lexer.rs lines 225-246). -/
def Lexer.skipCommentsGo : Nat → Lexer → LexRes Lexer
  | 0, _ => .oof
  | n+1, l =>
    if l.curr = '/' then
      match l.peek with
      | none => .panic
      | some p =>
        if p = '*' ∨ p = '/' then
          let c := l.curr
          let l1 := l.advance.advance
          if c = '/' ∧ p = '*' then
            match Lexer.blockGo (l1.src.length + 1) l1 with
            | .oof => .oof
            | .panic => .panic
            | .err e => .err e
            | .ok l2 => Lexer.skipCommentsGo n (l2.advance.advance.skipWhitespaces)
          else
            Lexer.skipCommentsGo n ((Lexer.lineGo (l1.src.length + 1) l1).skipWhitespaces)
        else .ok l
    else .ok l

/-- `Lexer::skip_comments` (lexer.rs lines 225-246).  Each outer iteration
advances `pos` by at least two while `pos < src.length` held on entry, so
`src.length + 1` fuel always suffices. -/
def Lexer.skipComments (l : Lexer) : LexRes Lexer :=
  Lexer.skipCommentsGo (l.src.length + 1) l

/-- `Lexer::is_escaped` (lexer.rs lines 133-145): count the run of
backslashes at the end of `literal` after dropping its last character. -/
def countLeadingBackslashes : List Char → Nat
  | [] => 0
  | c :: rest => if c = '\\' then countLeadingBackslashes rest + 1 else 0

/-- `Lexer::is_escaped` (lexer.rs lines 133-145). -/
def Lexer.isEscaped (literal : List Char) : Bool :=
  countLeadingBackslashes (literal.reverse.drop 1) % 2 == 1

/-- The scanning loop of `Lexer::lex_double_quoted_string` (lexer.rs
lines 115-128).  Note that running off the end of the input (`pos = len`)
exits the loop normally, producing a partial literal, exactly as in the
source. -/
def Lexer.stringGo : Nat → List Char → Lexer → LexRes (List Char × Lexer)
  | 0, _, _ => .oof
  | n+1, literal, l =>
    if l.pos < l.src.length then
      let c := l.curr
      if c = '\n' then .err "Unclosed string"
      else
        let literal := literal ++ [c]
        if c = '"' ∧ ¬ Lexer.isEscaped literal then .ok (literal, l.advance)
        else Lexer.stringGo n literal l.advance
    else .ok (literal, l)

/-- `Lexer::lex_double_quoted_string` (lexer.rs lines 104-131). -/
def Lexer.lexDoubleQuotedString (l : Lexer) : LexRes (Token × Lexer) :=
  if l.curr ≠ '"' then .err "String must start from \""
  else
    let location := l.location
    match Lexer.stringGo (l.src.length + 1) [l.curr] l.advance with
    | .oof => .oof
    | .panic => .panic
    | .err e => .err e
    | .ok (literal, l') => .ok (⟨.String, String.mk literal, location⟩, l')

/-- `Lexer::keyword_or_id_kind` (lexer.rs lines 165-172). -/
def Lexer.keywordOrIdKind (literal : String) : TokenKind :=
  match literal with
  | "return" => .Return
  | "fn" => .Fn
  | "int" => .Int
  | _ => .Id

/-- The scanning loop of `Lexer::lex_id_or_keyword` (lexer.rs
lines 155-158): `while curr().is_alphanumeric() || curr() == '_'`. -/
def Lexer.idGo : Nat → List Char → Lexer → List Char × Lexer
  | 0, literal, l => (literal, l)
  | n+1, literal, l =>
    if l.curr.isAlphanum ∨ l.curr = '_' then
      Lexer.idGo n (literal ++ [l.curr]) l.advance
    else (literal, l)

/-- `Lexer::lex_id_or_keyword` (lexer.rs lines 147-163). -/
def Lexer.lexIdOrKeyword (l : Lexer) : Option (Token × Lexer) :=
  if ¬ (l.curr.isAlpha ∨ l.curr = '_') then none
  else
    let location := l.location
    let (literal, l') := Lexer.idGo (l.src.length + 1) [] l
    some (⟨Lexer.keywordOrIdKind (String.mk literal), String.mk literal, location⟩, l')

/-- The scanning loop of `Lexer::lex_number` (lexer.rs lines 183-190):
`while curr().is_numeric() || curr() == '_' || curr() == '.'`, tracking
whether a dot was seen. -/
def Lexer.numGo : Nat → List Char → Bool → Lexer → List Char × Bool × Lexer
  | 0, literal, isFloat, l => (literal, isFloat, l)
  | n+1, literal, isFloat, l =>
    if l.curr.isDigit ∨ l.curr = '_' ∨ l.curr = '.' then
      Lexer.numGo n (literal ++ [l.curr]) (if l.curr = '.' then true else isFloat) l.advance
    else (literal, isFloat, l)

/-- `Lexer::lex_number` (lexer.rs lines 174-199). -/
def Lexer.lexNumber (l : Lexer) : Option (Token × Lexer) :=
  if ¬ l.curr.isDigit then none
  else
    let location := l.location
    let (literal, isFloat, l') := Lexer.numGo (l.src.length + 1) [] false l
    some (⟨if isFloat then .Float else .Int, String.mk literal, location⟩, l')

/-- `Lexer::lex_single_char_token` (lexer.rs lines 64-102).  For `+`, `=`
and `-` the one-character lookahead `peek` decides between the one- and
two-character operator kind, but the literal is always the single current
character and the caller advances only once.  `peek` can panic. -/
def Lexer.lexSingleCharToken (l : Lexer) : LexRes (Option Token) :=
  let c := l.curr
  match c with
  | '*' => .ok (some ⟨.Star, String.mk [c], l.location⟩)
  | '/' => .ok (some ⟨.Slash, String.mk [c], l.location⟩)
  | '+' =>
    match l.peek with
    | none => .panic
    | some p => .ok (some ⟨if p = '+' then .Inc else .Plus, String.mk [c], l.location⟩)
  | '=' =>
    match l.peek with
    | none => .panic
    | some p => .ok (some ⟨if p = '=' then .Eq2 else .Eq, String.mk [c], l.location⟩)
  | '-' =>
    match l.peek with
    | none => .panic
    | some p => .ok (some ⟨if p = '-' then .Decr else .Minus, String.mk [c], l.location⟩)
  | ':' => .ok (some ⟨.Colon, String.mk [c], l.location⟩)
  | ';' => .ok (some ⟨.Semicolon, String.mk [c], l.location⟩)
  | '(' => .ok (some ⟨.LParen, String.mk [c], l.location⟩)
  | ')' => .ok (some ⟨.RParen, String.mk [c], l.location⟩)
  | '\x7b' => .ok (some ⟨.LCurly, String.mk [c], l.location⟩)
  | '\x7d' => .ok (some ⟨.RCurly, String.mk [c], l.location⟩)
  | ',' => .ok (some ⟨.Comma, String.mk [c], l.location⟩)
  | _ => .ok none

/-- The main loop of `Lexer::lex` (lexer.rs lines 20-62), one fuel unit
per iteration; both loop exits append the single `EOF` token carrying the
current location (line 60). -/
def Lexer.lexLoop : Nat → Lexer → LexRes (List Token)
  | 0, _ => .oof
  | n+1, l =>
    if l.pos < l.src.length then
      let l1 := l.skipWhitespaces
      match l1.skipComments with
      | .oof => .oof
      | .panic => .panic
      | .err e => .err e
      | .ok l2 =>
        if l2.src.length ≤ l2.pos then
          .ok (l2.tokens ++ [⟨.EOF, "", l2.location⟩])
        else
          let c := l2.curr
          match l2.lexSingleCharToken with
          | .oof => .oof
          | .panic => .panic
          | .err e => .err e
          | .ok (some token) =>
            Lexer.lexLoop n { l2.advance with tokens := l2.tokens ++ [token] }
          | .ok none =>
            if c = '"' then
              match l2.lexDoubleQuotedString with
              | .oof => .oof
              | .panic => .panic
              | .err e => .err e
              | .ok (token, l3) =>
                Lexer.lexLoop n { l3 with tokens := l3.tokens ++ [token] }
            else
              match (if c.isAlpha ∨ c = '_' then l2.lexIdOrKeyword else none) with
              | some (token, l3) =>
                Lexer.lexLoop n { l3 with tokens := l3.tokens ++ [token] }
              | none =>
                match (if c.isDigit then l2.lexNumber else none) with
                | some (token, l3) =>
                  Lexer.lexLoop n { l3 with tokens := l3.tokens ++ [token] }
                | none => .err ("unrecognized lexeme at " ++ l2.location.display)
    else .ok (l.tokens ++ [⟨.EOF, "", l.location⟩])

/-- The same main loop as `lexLoop` (lexer.rs lines 20-62), branch for
branch on the same scrutinees, but returning the `Lexer` state at the
point where the loop exits and the `EOF` token is appended (line 60)
instead of the token list.  Since it is a function, it pins down the
final state — in particular the final cursor `Location` that the
appended `EOF` token carries — uniquely for a given input. -/
def Lexer.lexRun : Nat → Lexer → LexRes Lexer
  | 0, _ => .oof
  | n+1, l =>
    if l.pos < l.src.length then
      let l1 := l.skipWhitespaces
      match l1.skipComments with
      | .oof => .oof
      | .panic => .panic
      | .err e => .err e
      | .ok l2 =>
        if l2.src.length ≤ l2.pos then
          .ok l2
        else
          let c := l2.curr
          match l2.lexSingleCharToken with
          | .oof => .oof
          | .panic => .panic
          | .err e => .err e
          | .ok (some token) =>
            Lexer.lexRun n { l2.advance with tokens := l2.tokens ++ [token] }
          | .ok none =>
            if c = '"' then
              match l2.lexDoubleQuotedString with
              | .oof => .oof
              | .panic => .panic
              | .err e => .err e
              | .ok (token, l3) =>
                Lexer.lexRun n { l3 with tokens := l3.tokens ++ [token] }
            else
              match (if c.isAlpha ∨ c = '_' then l2.lexIdOrKeyword else none) with
              | some (token, l3) =>
                Lexer.lexRun n { l3 with tokens := l3.tokens ++ [token] }
              | none =>
                match (if c.isDigit then l2.lexNumber else none) with
                | some (token, l3) =>
                  Lexer.lexRun n { l3 with tokens := l3.tokens ++ [token] }
                | none => .err ("unrecognized lexeme at " ++ l2.location.display)
    else .ok l

/-- `Lexer::lex` (lexer.rs lines 20-62).  Every continuing iteration of
the main loop consumes at least one character, so `src.length + 1` fuel
always suffices. -/
def Lexer.lex (src : String) : LexRes (List Token) :=
  Lexer.lexLoop (src.length + 1) (Lexer.new src)

/-! ## ast.rs -/

/-- `Type` (ast.rs lines 40-48); named `Ty` here because `Type` is a Lean
keyword. -/
inductive Ty where
  | Int
  | String
  | Function (returnType : Ty) (paramTypes : List Ty)

/- `Statement`, `Expression`, `TypeMapping` (ast.rs lines 4-60). -/
mutual
inductive Statement where
  | Return (value : Option Expression)
  | ExpressionStatement (expression : Expression)
  | Halt

inductive Expression where
  | Binary (lhs : Expression) (op : TokenKind) (rhs : Expression)
  | Unary (op : TokenKind) (expr : Expression)
  | FunctionCall (callee : Expression) (args : List Expression)
  | FunctionLiteral (name : Option Token) (params : List TypeMapping)
      (returnType : Option Ty) (body : List Statement)
  | Id (name : Token)
  | Int (value : Token)

inductive TypeMapping where
  | mk (expr : Expression) (t : Ty)
end

/- `impl Display for Type` (ast.rs lines 136-150); the `join` of the
parameter types is written as an explicit list recursion. -/
mutual
def renderTy : Ty → String
  | .Int => "int"
  | .String => "string"
  | .Function returnType paramTypes =>
    "fn(" ++ renderTyList paramTypes ++ ") -> " ++ renderTy returnType

def renderTyList : List Ty → String
  | [] => ""
  | [t] => renderTy t
  | t :: t' :: rest => renderTy t ++ ", " ++ renderTyList (t' :: rest)
end

/- `impl Display` for `Statement` / `Expression` / `TypeMapping`
(ast.rs lines 62-134, 152-156); the `join` of argument, parameter and body
lists is written as explicit list recursions (comma- or space-separated). -/
mutual
def renderStmt : Statement → String
  | .ExpressionStatement expression => renderExpr expression ++ ";"
  | .Return (some val) => "return " ++ renderExpr val
  | .Return none => "return"
  | .Halt => "EOF"

def renderExpr : Expression → String
  | .Binary lhs op rhs =>
    "(" ++ renderExpr lhs ++ " " ++ kindDisplay op ++ " " ++ renderExpr rhs ++ ")"
  | .Unary op expr => "(" ++ kindDisplay op ++ renderExpr expr ++ ")"
  | .FunctionCall callee args =>
    "fcall: " ++ renderExpr callee ++ "(" ++ renderExprList args ++ ")"
  | .Id name => name.literal
  | .Int value => value.literal
  | .FunctionLiteral name params returnType body =>
    let nameStr := match name with
      | some t => t.literal
      | none => "<anon>"
    let retStr := match returnType with
      | some t => renderTy t
      | none => "void"
    "fn " ++ nameStr ++ "(" ++ renderParamList params ++ ") -> " ++ retStr ++
      " \x7b " ++ renderStmtList body ++ " \x7d"

def renderExprList : List Expression → String
  | [] => ""
  | [e] => renderExpr e
  | e :: e' :: rest => renderExpr e ++ ", " ++ renderExprList (e' :: rest)

def renderParamList : List TypeMapping → String
  | [] => ""
  | [.mk expr t] => renderExpr expr ++ ": " ++ renderTy t
  | .mk expr t :: p :: rest =>
    renderExpr expr ++ ": " ++ renderTy t ++ ", " ++ renderParamList (p :: rest)

def renderStmtList : List Statement → String
  | [] => ""
  | [s] => renderStmt s
  | s :: s' :: rest => renderStmt s ++ " " ++ renderStmtList (s' :: rest)
end

/-- Erase the source location carried by a token, keeping kind and
literal; used to compare ASTs up to token positions. -/
def stripToken (t : Token) : Token :=
  { t with location := { col := 0, line := 0 } }

/- Location erasure over the AST: the same tree with every token's
location replaced by the fixed placeholder. -/
mutual
def stripStmt : Statement → Statement
  | .Return (some v) => .Return (some (stripExpr v))
  | .Return none => .Return none
  | .ExpressionStatement e => .ExpressionStatement (stripExpr e)
  | .Halt => .Halt

def stripExpr : Expression → Expression
  | .Binary lhs op rhs => .Binary (stripExpr lhs) op (stripExpr rhs)
  | .Unary op e => .Unary op (stripExpr e)
  | .FunctionCall callee args => .FunctionCall (stripExpr callee) (stripExprList args)
  | .FunctionLiteral name params returnType body =>
    .FunctionLiteral (name.map stripToken) (stripParamList params) returnType
      (stripStmtList body)
  | .Id name => .Id (stripToken name)
  | .Int value => .Int (stripToken value)

def stripExprList : List Expression → List Expression
  | [] => []
  | e :: rest => stripExpr e :: stripExprList rest

def stripParamList : List TypeMapping → List TypeMapping
  | [] => []
  | .mk expr t :: rest => .mk (stripExpr expr) t :: stripParamList rest

def stripStmtList : List Statement → List Statement
  | [] => []
  | s :: rest => stripStmt s :: stripStmtList rest
end


/-! ## parser.rs

The `Parser` struct (parser.rs lines 4-7).  A parsing operation mutates
the cursor `pos` and either produces a value or an error string; the
mutation persists across an error (Rust's `?` on `&mut self`), so the
result type pairs an `Except` with the updated parser.  The recursive
descent is embedded with an explicit fuel argument for the mutual
recursion; `none` means the fuel ran out. -/

structure Parser where
  tokens : List Token
  pos : Nat
  deriving Repr

/-- The result of running one parsing operation: `none` = out of fuel,
otherwise the `Ok`/`Err` outcome together with the parser state as it
stands at the return point. -/
abbrev PRes (α : Type) := Option (Except String α × Parser)

/-- `Parser::new` (parser.rs lines 10-15). -/
def Parser.new (tokens : List Token) : Parser :=
  { tokens := tokens, pos := 0 }

/-- `Parser::peek_off` (parser.rs lines 402-408). -/
def Parser.peekOff (p : Parser) (offset : Nat) : Option Token :=
  if p.tokens.length ≤ p.pos + offset then none else p.tokens[p.pos + offset]?

/-- `Parser::curr` (parser.rs lines 328-330). -/
def Parser.curr (p : Parser) : Option Token :=
  p.peekOff 0

/-- `Parser::peek` (parser.rs lines 398-400). -/
def Parser.peekTok (p : Parser) : Option Token :=
  p.peekOff 1

/-- `Parser::advance` (parser.rs lines 410-412). -/
def Parser.advance (p : Parser) : Parser :=
  { p with pos := p.pos + 1 }

/-- `Parser::curr_expect` (parser.rs lines 332-352). -/
def Parser.currExpect (p : Parser) (kind : TokenKind) : Except String Token :=
  match p.curr with
  | some curr =>
    if curr.kind ≠ kind then
      .error ("expected " ++ kindDebug kind ++ " at line " ++ toString curr.location.line
        ++ " col " ++ toString curr.location.col)
    else .ok curr
  | none =>
    match p.tokens.getLast? with
    | some last =>
      .error ("input expected " ++ kindDisplay kind ++ " after token at line "
        ++ toString last.location.line ++ " col " ++ toString last.location.col ++ " ")
    | none => .error ("input expected " ++ kindDisplay kind)

/-- `Parser::expect` (parser.rs lines 354-374). -/
def Parser.expect (p : Parser) (kind : TokenKind) : Except String Unit :=
  match p.curr with
  | some curr =>
    if curr.kind ≠ kind then
      .error ("expected " ++ kindDebug kind ++ " at line " ++ toString curr.location.line
        ++ " col " ++ toString curr.location.col)
    else .ok ()
  | none =>
    match p.tokens.getLast? with
    | some last =>
      .error ("input expected " ++ kindDisplay kind ++ " after token at line "
        ++ toString last.location.line ++ " col " ++ toString last.location.col ++ " ")
    | none => .error ("input expected " ++ kindDisplay kind)

/-- `Parser::get_binding_power` (parser.rs lines 414-420). -/
def Parser.getBindingPower (op : TokenKind) : Nat × Nat :=
  match op with
  | .Plus | .Minus => (1, 2)
  | .Star | .Slash => (3, 4)
  | _ => (0, 0)

/-- `Parser::is_binary_operator` (parser.rs lines 422-429). -/
def Parser.isBinaryOperator (kind : TokenKind) : Bool :=
  kind.isOneOf [.Plus, .Minus, .Star, .Slash]

/-- `Parser::parse_type` (parser.rs lines 309-326): only the `Int` keyword
token is accepted. -/
def Parser.parseType (p : Parser) : Except String (Ty × Parser) :=
  match p.curr with
  | some curr =>
    match curr.kind with
    | .Int => .ok (.Int, p.advance)
    | _ =>
      .error ("Expected type at line: " ++ toString curr.location.line ++ ", col: "
        ++ toString curr.location.col ++ ", but got: " ++ kindDisplay curr.kind)
  | none => .error "Expected type at the end of stream"

/- The mutually recursive parsing functions (parser.rs lines 44-307).
Every mutual call passes through one fuel decrement, so the block is
embedded as a structure of functions defined by primitive recursion on
the fuel (`Nat.rec`): at fuel `n + 1` each function's mutual calls use
the fuel-`n` family, and at fuel `0` every function reports fuel
exhaustion (`none`).  The `while` loops inside `parse_binary`,
`parse_function_call`, `parse_function_literal_or_call` are embedded as
the fields `binaryLoop`, `callArgs`, `params`, `body` (the argument-list
loop at parser.rs lines 185-198 and the verbatim-identical one at
lines 274-287 are both embedded by `callArgs`).  The wrappers
`parseStmt`, `parseExpr`, ... below restore the one-definition-per-source-
function view. -/
structure ParserFns where
  stmt : Parser → PRes Statement
  expr : Parser → PRes Expression
  binary : Nat → Parser → PRes Expression
  binaryLoop : Nat → Expression → Parser → PRes Expression
  pref : Parser → PRes Expression
  atom : Parser → PRes Expression
  idOrCall : Parser → PRes Expression
  fcall : Parser → PRes Expression
  callArgs : List Expression → Parser → PRes (List Expression)
  fnLitOrCall : Parser → PRes Expression
  params : List TypeMapping → Parser → PRes (List TypeMapping)
  body : Token → List Statement → Parser → PRes (List Statement)

/-- The fuel-0 family: every parsing function is out of fuel. -/
def parserFnsZero : ParserFns where
  stmt := fun _ => none
  expr := fun _ => none
  binary := fun _ _ => none
  binaryLoop := fun _ _ _ => none
  pref := fun _ => none
  atom := fun _ => none
  idOrCall := fun _ => none
  fcall := fun _ => none
  callArgs := fun _ _ => none
  fnLitOrCall := fun _ => none
  params := fun _ _ => none
  body := fun _ _ _ => none

/-- `Parser::parse_stmt` (parser.rs lines 44-78). -/
def parseStmtF (prev : ParserFns) : Parser → PRes Statement :=
  fun p =>
  match p.curr with
  | some curr =>
    match curr.kind with
    | .EOF => some (.ok .Halt, p)
    | .Return =>
      let p := p.advance
      match p.expect .Semicolon with
      | .ok _ => some (.ok (.Return none), p.advance)
      | .error _ =>
        match prev.expr p with
        | none => none
        | some (.error e, p') => some (.error e, p')
        | some (.ok expr, p') =>
          match p'.expect .Semicolon with
          | .error e => some (.error e, p')
          | .ok _ => some (.ok (.Return (some expr)), p'.advance)
    | _ =>
      match prev.expr p with
      | none => none
      | some (.error e, p') => some (.error e, p')
      | some (.ok expr, p') =>
        match expr with
        | .FunctionLiteral _ _ _ _ => some (.ok (.ExpressionStatement expr), p')
        | _ =>
          match p'.expect .Semicolon with
          | .error e => some (.error e, p')
          | .ok _ => some (.ok (.ExpressionStatement expr), p'.advance)
  | none => some (.error "expected statement before the end of input", p)

/-- `Parser::parse_expr` (parser.rs lines 80-82). -/
def parseExprF (prev : ParserFns) : Parser → PRes Expression :=
  fun p => prev.binary 0 p

/-- `Parser::parse_binary` (parser.rs lines 84-111): parse a prefix
expression, then fold binary operators via `binaryLoop`. -/
def parseBinaryF (prev : ParserFns) : Nat → Parser → PRes Expression :=
  fun minBp p =>
  match prev.pref p with
  | none => none
  | some (.error e, p') => some (.error e, p')
  | some (.ok lhs, p') => prev.binaryLoop minBp lhs p'

/-- The `while` loop of `Parser::parse_binary` (parser.rs lines 87-108). -/
def parseBinaryLoopF (prev : ParserFns) : Nat → Expression → Parser → PRes Expression :=
  fun minBp lhs p =>
  match p.curr with
  | none => some (.ok lhs, p)
  | some op =>
    if Parser.isBinaryOperator op.kind then
      let (lBp, rBp) := Parser.getBindingPower op.kind
      if lBp < minBp then some (.ok lhs, p)
      else
        match prev.binary rBp p.advance with
        | none => none
        | some (.error e, p') => some (.error e, p')
        | some (.ok rhs, p') => prev.binaryLoop minBp (.Binary lhs op.kind rhs) p'
    else some (.ok lhs, p)

/-- `Parser::parse_prefix` (parser.rs lines 113-131). -/
def parsePrefF (prev : ParserFns) : Parser → PRes Expression :=
  fun p =>
  match p.curr with
  | some curr =>
    match curr.kind with
    | .Plus | .Minus =>
      match prev.atom p.advance with
      | none => none
      | some (.error e, p') => some (.error e, p')
      | some (.ok expr, p') => some (.ok (.Unary curr.kind expr), p')
    | _ => prev.atom p
  | none => some (.error "", p)

/-- `Parser::parse_atom` (parser.rs lines 133-157). -/
def parseAtomF (prev : ParserFns) : Parser → PRes Expression :=
  fun p =>
  match p.curr with
  | some curr =>
    match curr.kind with
    | .Fn => prev.fnLitOrCall p
    | .Id => prev.idOrCall p
    | .Int => some (.ok (.Int curr), p.advance)
    | _ =>
      some (.error ("unexpected token '" ++ curr.literal ++ "' (" ++ kindDebug curr.kind
        ++ ") at " ++ curr.location.display), p)
  | none => some (.error "unexpected end of input while parsing expression", p)

/-- `Parser::parse_id_or_function_call` (parser.rs lines 159-172). -/
def parseIdOrCallF (prev : ParserFns) : Parser → PRes Expression :=
  fun p =>
  match p.expect .Id with
  | .error e => some (.error e, p)
  | .ok _ =>
    match p.peekTok with
    | some peek =>
      if peek.kind.isKind .LParen then prev.fcall p
      else
        match p.curr with
        | some curr => some (.ok (.Id curr), p.advance)
        | none => some (.error "", p)
    | none =>
      match p.curr with
      | some curr => some (.ok (.Id curr), p.advance)
      | none => some (.error "", p)

/-- `Parser::parse_function_call` (parser.rs lines 174-207). -/
def parseFcallF (prev : ParserFns) : Parser → PRes Expression :=
  fun p =>
  match p.expect .Id with
  | .error e => some (.error e, p)
  | .ok _ =>
    match p.curr with
    | some curr =>
      let name := curr
      let p := p.advance
      match p.expect .LParen with
      | .error e => some (.error e, p)
      | .ok _ =>
        match prev.callArgs [] p.advance with
        | none => none
        | some (.error e, p') => some (.error e, p')
        | some (.ok args, p') => some (.ok (.FunctionCall (.Id name) args), p')
    | none => some (.error "expected identifier before function call", p)

/-- The argument-list loop shared verbatim by `parse_function_call`
(parser.rs lines 185-198) and `parse_function_literal_or_call`
(parser.rs lines 274-287): on `RParen` consume it and stop; otherwise
parse an expression and consume a following comma if present. -/
def parseCallArgsF (prev : ParserFns) : List Expression → Parser → PRes (List Expression) :=
  fun args p =>
  match p.curr with
  | none => some (.ok args, p)
  | some curr =>
    match curr.kind with
    | .RParen => some (.ok args, p.advance)
    | _ =>
      match prev.expr p with
      | none => none
      | some (.error e, p') => some (.error e, p')
      | some (.ok expr, p') =>
        let args := args ++ [expr]
        match p'.expect .Comma with
        | .ok _ => prev.callArgs args p'.advance
        | .error _ => prev.callArgs args p'

/-- `Parser::parse_function_literal_or_call` (parser.rs lines 209-307). -/
def parseFnLitOrCallF (prev : ParserFns) : Parser → PRes Expression :=
  fun p =>
  match p.currExpect .Fn with
  | .error e => some (.error e, p)
  | .ok fnKeyword =>
    let p := p.advance
    let (name, p) :=
      match p.currExpect .Id with
      | .ok id => (some id, p.advance)
      | .error _ => ((none : Option Token), p)
    match p.expect .LParen with
    | .error e => some (.error e, p)
    | .ok _ =>
      match prev.params [] p.advance with
      | none => none
      | some (.error e, p') => some (.error e, p')
      | some (.ok params, p') =>
        let p := p'.advance
        let retStep : PRes (Option Ty) :=
          match p.expect .Colon with
          | .ok _ =>
            let p := p.advance
            match p.expect .Colon with
            | .error e => some (.error e, p)
            | .ok _ =>
              match (p.advance).parseType with
              | .error e => some (.error e, p.advance)
              | .ok (t, p') => some (.ok (some t), p')
          | .error _ => some (.ok none, p)
        match retStep with
        | none => none
        | some (.error e, p') => some (.error e, p')
        | some (.ok returnType, p') =>
          match p'.expect .LCurly with
          | .error e => some (.error e, p')
          | .ok _ =>
            match prev.body fnKeyword [] p'.advance with
            | none => none
            | some (.error e, p2) => some (.error e, p2)
            | some (.ok body, p2) =>
              let p := p2.advance
              match p.expect .LParen with
              | .ok _ =>
                match prev.callArgs [] p.advance with
                | none => none
                | some (.error e, p3) => some (.error e, p3)
                | some (.ok args, p3) =>
                  some (.ok (.FunctionCall
                    (.FunctionLiteral name params returnType body) args), p3)
              | .error _ =>
                some (.ok (.FunctionLiteral name params returnType body), p)

/-- The parameter-list loop of `parse_function_literal_or_call`
(parser.rs lines 225-240): while the current token is not `RParen`,
parse `Id : Type` and consume a following comma if present. -/
def parseParamsF (prev : ParserFns) : List TypeMapping → Parser → PRes (List TypeMapping) :=
  fun params p =>
  match p.expect .RParen with
  | .ok _ => some (.ok params, p)
  | .error _ =>
    match p.currExpect .Id with
    | .error e => some (.error e, p)
    | .ok paramName =>
      let p := p.advance
      match p.expect .Colon with
      | .error e => some (.error e, p)
      | .ok _ =>
        match (p.advance).parseType with
        | .error e => some (.error e, p.advance)
        | .ok (paramType, p') =>
          let params := params ++ [.mk (.Id paramName) paramType]
          match p'.expect .Comma with
          | .ok _ => prev.params params p'.advance
          | .error _ => prev.params params p'

/-- The body loop of `parse_function_literal_or_call` (parser.rs
lines 257-267): while the current token is not `RCurly`, parse a
statement; a `Halt` (end of input) is a fatal error reported at the
`fn` keyword's location. -/
def parseBodyF (prev : ParserFns) : Token → List Statement → Parser → PRes (List Statement) :=
  fun fnKeyword body p =>
  match p.expect .RCurly with
  | .ok _ => some (.ok body, p)
  | .error _ =>
    match prev.stmt p with
    | none => none
    | some (.error e, p') => some (.error e, p')
    | some (.ok stmt, p') =>
      match stmt with
      | .Halt =>
        some (.error ("unexpected end of input in function body at line: "
          ++ toString fnKeyword.location.line ++ ", col: "
          ++ toString fnKeyword.location.col), p')
      | _ => prev.body fnKeyword (body ++ [stmt]) p'

/-- One fuel step: each field is the corresponding source function at
fuel `n + 1`, its mutual calls referring to the fuel-`n` family `prev`. -/
def parserFnsStep (prev : ParserFns) : ParserFns where
  stmt := parseStmtF prev
  expr := parseExprF prev
  binary := parseBinaryF prev
  binaryLoop := parseBinaryLoopF prev
  pref := parsePrefF prev
  atom := parseAtomF prev
  idOrCall := parseIdOrCallF prev
  fcall := parseFcallF prev
  callArgs := parseCallArgsF prev
  fnLitOrCall := parseFnLitOrCallF prev
  params := parseParamsF prev
  body := parseBodyF prev

/-- The fuel-indexed family of parsing functions. -/
def parserFns (fuel : Nat) : ParserFns :=
  Nat.rec parserFnsZero (fun _ prev => parserFnsStep prev) fuel

/-- `Parser::parse_stmt` (parser.rs lines 44-78) at the given fuel. -/
def parseStmt (fuel : Nat) : Parser → PRes Statement :=
  (parserFns fuel).stmt

/-- `Parser::parse_expr` (parser.rs lines 80-82) at the given fuel. -/
def parseExpr (fuel : Nat) : Parser → PRes Expression :=
  (parserFns fuel).expr

/-- `Parser::parse_binary` (parser.rs lines 84-111) at the given fuel. -/
def parseBinary (fuel : Nat) : Nat → Parser → PRes Expression :=
  (parserFns fuel).binary

/-- `Parser::parse_prefix` (parser.rs lines 113-131) at the given fuel. -/
def parsePref (fuel : Nat) : Parser → PRes Expression :=
  (parserFns fuel).pref

/-- `Parser::parse_atom` (parser.rs lines 133-157) at the given fuel. -/
def parseAtom (fuel : Nat) : Parser → PRes Expression :=
  (parserFns fuel).atom

/-- The call-argument-list loop (parser.rs lines 185-198 and 274-287) at
the given fuel. -/
def parseCallArgs (fuel : Nat) : List Expression → Parser → PRes (List Expression) :=
  (parserFns fuel).callArgs

/-- The top-level loop of `Parser::parse` (parser.rs lines 17-42): parse
statements until a `Halt`; on an error, record it and advance one token;
at the end return the error list if non-empty, else the statements. -/
def parseLoop : Nat → Parser → List Statement → List String →
    Option (Except (List String) (List Statement))
  | 0, _, _, _ => none
  | n+1, p, stmts, errs =>
    match parseStmt n p with
    | none => none
    | some (.error err, p') => parseLoop n p'.advance stmts (errs ++ [err])
    | some (.ok stmt, p') =>
      match stmt with
      | .Halt => some (if errs.length ≠ 0 then .error errs else .ok stmts)
      | _ => parseLoop n p' (stmts ++ [stmt]) errs

/-- `Parser::parse` (parser.rs lines 17-42), with explicit fuel: `none`
means the fuel was exhausted; for a loop that never reaches `Halt` this
holds for every fuel value, i.e. the source loop diverges. -/
def Parser.parse (fuel : Nat) (tokens : List Token) : Option (Except (List String) (List Statement)) :=
  parseLoop fuel (Parser.new tokens) [] []

/-- The spec's data-flow pipeline (source text → `Lexer.lex` →
`Parser.parse`), rendering each resulting statement; `none` when lexing
fails or parsing fails or runs out of fuel. -/
def pipelineRender (fuel : Nat) (src : String) : Option (List String) :=
  match Lexer.lex src with
  | .ok tokens =>
    match Parser.parse fuel tokens with
    | some (.ok stmts) => some (stmts.map renderStmt)
    | _ => none
  | _ => none

/-- The same pipeline returning the parsed statements themselves. -/
def pipelineParse (fuel : Nat) (src : String) : Option (List Statement) :=
  match Lexer.lex src with
  | .ok tokens =>
    match Parser.parse fuel tokens with
    | some (.ok stmts) => some stmts
    | _ => none
  | _ => none



/-! ## Theorems -/

/-- Claim C2: the spec asserts that `Lexer.lex` always returns a value and
that every internal character access is in bounds, even when the source
ends with `+`, `-`, `=` or `/`.  The code violates this: `Lexer::peek`
guards `pos >= len` but reads `src[pos + 1]`, so on the one-character
input `+` the lookahead indexes `src[1]`, out of bounds — a panic. -/
theorem lex_panics_on_trailing_plus : Lexer.lex "+" = .panic := rfl

/-- Claim C3: the spec asserts that `++` lexes to a single `Inc` token
with literal `++` consuming both characters.  The code instead builds the
`Inc` token with the single-character literal `+` and advances once, so
the second `+` is lexed again as a separate `Plus` token: `++;` yields
`Inc "+", Plus "+", Semicolon, EOF`, not `Inc "++", Semicolon, EOF`. -/
theorem lex_double_plus_two_tokens :
    Lexer.lex "++;" = .ok [
      { kind := .Inc, literal := "+", location := { col := 1, line := 1 } },
      { kind := .Plus, literal := "+", location := { col := 2, line := 1 } },
      { kind := .Semicolon, literal := ";", location := { col := 3, line := 1 } },
      { kind := .EOF, literal := "", location := { col := 4, line := 1 } }] := rfl

/-- Claim C5: the spec asserts that a block comment is discarded up to and
including the first `*/`, regardless of lone `*` or `/` characters inside.
The code's inner loop `while curr != '*' && peek != '/' && pos < len`
stops at the first lone `*` (or at any character followed by `/`), so on
`/*a*b*/c;` the characters `b`, `*`, `/` are not all discarded: the lexer
returns `Star`, `Slash`, `Id c`, `Semicolon` instead of only
`Id c`, `Semicolon`. -/
theorem lex_block_comment_leak :
    Lexer.lex "/*a*b*/c;" = .ok [
      { kind := .Star, literal := "*", location := { col := 6, line := 1 } },
      { kind := .Slash, literal := "/", location := { col := 7, line := 1 } },
      { kind := .Id, literal := "c", location := { col := 8, line := 1 } },
      { kind := .Semicolon, literal := ";", location := { col := 9, line := 1 } },
      { kind := .EOF, literal := "", location := { col := 10, line := 1 } }] := rfl

/-- Claim C4 (counterexample): with input `"ab` — a string opened and
never closed, the input ending before any closing quote — lexing does not
fail: it succeeds, returning a token stream that contains the partial,
unterminated string token `"ab`. -/
theorem lex_unterminated_eof_returns_token :
    Lexer.lex "\"ab" = .ok [
      { kind := .String, literal := "\"ab", location := { col := 1, line := 1 } },
      { kind := .EOF, literal := "", location := { col := 4, line := 1 } }] := rfl

/-- Claim C4 (amended): only the raw-newline case is a lexing error: when
the string-scanning loop meets a newline before the closing quote it
fails with `Unclosed string`, but when the input simply ends before the
closing quote the lexer returns a `String` token holding the partial
literal (shown on input `"ab`). -/
theorem string_newline_err_and_eof_partial :
    (∀ (fuel : Nat) (lit : List Char) (l : Lexer),
      l.pos < l.src.length → l.curr = '\n' →
      Lexer.stringGo (fuel + 1) lit l = .err "Unclosed string") ∧
    Lexer.lex "\"ab" = .ok [
      { kind := .String, literal := "\"ab", location := { col := 1, line := 1 } },
      { kind := .EOF, literal := "", location := { col := 4, line := 1 } }] := by
  refine ⟨fun fuel lit l h1 h2 => ?_, rfl⟩
  simp [Lexer.stringGo, h1, h2]

/-- Witness for `string_newline_err_and_eof_partial`: the newline case at
a concrete scanning state. -/
theorem string_newline_err_witness :
    Lexer.stringGo 1 ['"']
      { src := ['"', '\n'], pos := 1, location := { col := 2, line := 1 }, tokens := [] } =
      .err "Unclosed string" :=
  string_newline_err_and_eof_partial.1 0 ['"'] _ (by decide) rfl

/-- Claim C7: `"1 + 2 * 3;"` parses and renders as `"(1 + (2 * 3));"`
(multiplication binds tighter) and `"1 - 2 - 3;"` as `"((1 - 2) - 3);"`
(left associativity), with the binding powers `(+,-) = (1,2)` and
`(*,/) = (3,4)` used by the precedence-climbing loop. -/
theorem precedence_and_associativity :
    pipelineRender 100 "1 + 2 * 3;" = some ["(1 + (2 * 3));"] ∧
    pipelineRender 100 "1 - 2 - 3;" = some ["((1 - 2) - 3);"] ∧
    Parser.getBindingPower .Plus = (1, 2) ∧ Parser.getBindingPower .Minus = (1, 2) ∧
    Parser.getBindingPower .Star = (3, 4) ∧ Parser.getBindingPower .Slash = (3, 4) := by
  have h1 : Lexer.lex "1 + 2 * 3;" = .ok [
    { kind := .Int, literal := "1", location := { col := 1, line := 1 } },
    { kind := .Plus, literal := "+", location := { col := 3, line := 1 } },
    { kind := .Int, literal := "2", location := { col := 5, line := 1 } },
    { kind := .Star, literal := "*", location := { col := 7, line := 1 } },
    { kind := .Int, literal := "3", location := { col := 9, line := 1 } },
    { kind := .Semicolon, literal := ";", location := { col := 10, line := 1 } },
    { kind := .EOF, literal := "", location := { col := 11, line := 1 } }] := rfl
  have h2 : Lexer.lex "1 - 2 - 3;" = .ok [
    { kind := .Int, literal := "1", location := { col := 1, line := 1 } },
    { kind := .Minus, literal := "-", location := { col := 3, line := 1 } },
    { kind := .Int, literal := "2", location := { col := 5, line := 1 } },
    { kind := .Minus, literal := "-", location := { col := 7, line := 1 } },
    { kind := .Int, literal := "3", location := { col := 9, line := 1 } },
    { kind := .Semicolon, literal := ";", location := { col := 10, line := 1 } },
    { kind := .EOF, literal := "", location := { col := 11, line := 1 } }] := rfl
  refine ⟨?_, ?_, rfl, rfl, rfl, rfl⟩
  · unfold pipelineRender
    rw [h1]
    rfl
  · unfold pipelineRender
    rw [h2]
    rfl

/-- Claim C10: in call argument lists and function-literal parameter
lists the comma is an optional separator: `foo(1 2);` parses successfully
to the same AST (up to token source locations) as `foo(1, 2);`, and
`fn f(a: int b: int) { }` to the same AST as `fn f(a: int, b: int) { }`. -/
theorem comma_optional_separator :
    (pipelineParse 100 "foo(1 2);").isSome = true ∧
    (pipelineParse 100 "fn f(a: int b: int) \x7b \x7d").isSome = true ∧
    (pipelineParse 100 "foo(1 2);").map stripStmtList =
      (pipelineParse 100 "foo(1, 2);").map stripStmtList ∧
    (pipelineParse 100 "fn f(a: int b: int) \x7b \x7d").map stripStmtList =
      (pipelineParse 100 "fn f(a: int, b: int) \x7b \x7d").map stripStmtList := by
  have h1 : Lexer.lex "foo(1 2);" = .ok [
    { kind := .Id, literal := "foo", location := { col := 1, line := 1 } },
    { kind := .LParen, literal := "(", location := { col := 4, line := 1 } },
    { kind := .Int, literal := "1", location := { col := 5, line := 1 } },
    { kind := .Int, literal := "2", location := { col := 7, line := 1 } },
    { kind := .RParen, literal := ")", location := { col := 8, line := 1 } },
    { kind := .Semicolon, literal := ";", location := { col := 9, line := 1 } },
    { kind := .EOF, literal := "", location := { col := 10, line := 1 } }] := rfl
  have h2 : Lexer.lex "foo(1, 2);" = .ok [
    { kind := .Id, literal := "foo", location := { col := 1, line := 1 } },
    { kind := .LParen, literal := "(", location := { col := 4, line := 1 } },
    { kind := .Int, literal := "1", location := { col := 5, line := 1 } },
    { kind := .Comma, literal := ",", location := { col := 6, line := 1 } },
    { kind := .Int, literal := "2", location := { col := 8, line := 1 } },
    { kind := .RParen, literal := ")", location := { col := 9, line := 1 } },
    { kind := .Semicolon, literal := ";", location := { col := 10, line := 1 } },
    { kind := .EOF, literal := "", location := { col := 11, line := 1 } }] := rfl
  have h3 : Lexer.lex "fn f(a: int b: int) \x7b \x7d" = .ok [
    { kind := .Fn, literal := "fn", location := { col := 1, line := 1 } },
    { kind := .Id, literal := "f", location := { col := 4, line := 1 } },
    { kind := .LParen, literal := "(", location := { col := 5, line := 1 } },
    { kind := .Id, literal := "a", location := { col := 6, line := 1 } },
    { kind := .Colon, literal := ":", location := { col := 7, line := 1 } },
    { kind := .Int, literal := "int", location := { col := 9, line := 1 } },
    { kind := .Id, literal := "b", location := { col := 13, line := 1 } },
    { kind := .Colon, literal := ":", location := { col := 14, line := 1 } },
    { kind := .Int, literal := "int", location := { col := 16, line := 1 } },
    { kind := .RParen, literal := ")", location := { col := 19, line := 1 } },
    { kind := .LCurly, literal := "\x7b", location := { col := 21, line := 1 } },
    { kind := .RCurly, literal := "\x7d", location := { col := 23, line := 1 } },
    { kind := .EOF, literal := "", location := { col := 24, line := 1 } }] := rfl
  have h4 : Lexer.lex "fn f(a: int, b: int) \x7b \x7d" = .ok [
    { kind := .Fn, literal := "fn", location := { col := 1, line := 1 } },
    { kind := .Id, literal := "f", location := { col := 4, line := 1 } },
    { kind := .LParen, literal := "(", location := { col := 5, line := 1 } },
    { kind := .Id, literal := "a", location := { col := 6, line := 1 } },
    { kind := .Colon, literal := ":", location := { col := 7, line := 1 } },
    { kind := .Int, literal := "int", location := { col := 9, line := 1 } },
    { kind := .Comma, literal := ",", location := { col := 12, line := 1 } },
    { kind := .Id, literal := "b", location := { col := 14, line := 1 } },
    { kind := .Colon, literal := ":", location := { col := 15, line := 1 } },
    { kind := .Int, literal := "int", location := { col := 17, line := 1 } },
    { kind := .RParen, literal := ")", location := { col := 20, line := 1 } },
    { kind := .LCurly, literal := "\x7b", location := { col := 22, line := 1 } },
    { kind := .RCurly, literal := "\x7d", location := { col := 24, line := 1 } },
    { kind := .EOF, literal := "", location := { col := 25, line := 1 } }] := rfl
  refine ⟨?_, ?_, ?_, ?_⟩
  · unfold pipelineParse
    rw [h1]
    rfl
  · unfold pipelineParse
    rw [h3]
    rfl
  · unfold pipelineParse
    rw [h1, h2]
    rfl
  · unfold pipelineParse
    rw [h3, h4]
    rfl

/-! Helper lemmas about the parser loop. -/

/-- At any positive fuel, `parse_stmt` with the cursor past the end of the
token list reports `expected statement before the end of input` without
moving the cursor. -/
lemma parseStmt_past_end (n : Nat) (p : Parser) (h : p.tokens.length ≤ p.pos) :
    parseStmt (n + 1) p = some (.error "expected statement before the end of input", p) := by
  have hc : p.curr = none := by
    simp [Parser.curr, Parser.peekOff, h]
  show parseStmtF (parserFns n) p = _
  simp [parseStmtF, hc]

/-- Once the cursor is past the end of the token list, the top-level parse
loop never terminates: each iteration fails, records a diagnostic and
advances further past the end. -/
lemma parseLoop_stuck_past_end :
    ∀ (fuel : Nat) (p : Parser) (stmts : List Statement) (errs : List String),
      p.tokens.length ≤ p.pos → parseLoop fuel p stmts errs = none := by
  intro fuel
  induction fuel with
  | zero => intro p stmts errs _; rfl
  | succ n ih =>
    intro p stmts errs h
    match n, ih with
    | 0, _ => rfl
    | k + 1, ih =>
      rw [parseLoop, parseStmt_past_end k p h]
      exact ih p.advance stmts _ (by simp [Parser.advance]; omega)

/-- On the token stream of the source `return` — `Return` then the `EOF`
sentinel — `parse_stmt` either runs out of fuel or fails (the expression
after `return` is missing), leaving the cursor on the `EOF` token. -/
lemma parseStmt_return_eof (n : Nat) :
    parseStmt n { tokens := [
        { kind := .Return, literal := "return", location := { col := 1, line := 1 } },
        { kind := .EOF, literal := "", location := { col := 7, line := 1 } }], pos := 0 } = none ∨
    parseStmt n { tokens := [
        { kind := .Return, literal := "return", location := { col := 1, line := 1 } },
        { kind := .EOF, literal := "", location := { col := 7, line := 1 } }], pos := 0 } =
      some (.error "unexpected token '' (EOF) at line: 1, col: 7",
        { tokens := [
          { kind := .Return, literal := "return", location := { col := 1, line := 1 } },
          { kind := .EOF, literal := "", location := { col := 7, line := 1 } }], pos := 1 }) := by
  match n with
  | 0 => exact Or.inl rfl
  | 1 => exact Or.inl rfl
  | 2 => exact Or.inl rfl
  | 3 => exact Or.inl rfl
  | 4 => exact Or.inl rfl
  | m + 5 => exact Or.inr rfl

/-- Claim C1: the spec asserts that `Parser.parse` terminates on every
finite token sequence, in particular on sequences ending in the `EOF`
sentinel.  The code violates this: on the token stream of the source
`return` (a `Return` token then `EOF`), the statement parse fails at the
`EOF` token, panic-mode recovery advances the cursor past the `EOF`
position, and from then on every retry fails again with
`expected statement before the end of input` and advances further — the
loop never reaches its `Halt` exit.  In the fuel embedding: no fuel value
whatsoever makes `Parser.parse` return. -/
theorem parse_diverges_after_eof_overrun (fuel : Nat) :
    Parser.parse fuel [
      { kind := .Return, literal := "return", location := { col := 1, line := 1 } },
      { kind := .EOF, literal := "", location := { col := 7, line := 1 } }] = none := by
  match fuel with
  | 0 => rfl
  | n + 1 =>
    show parseLoop (n + 1) _ [] [] = none
    rw [parseLoop]
    simp only [Parser.new]
    rcases parseStmt_return_eof n with h | h
    · rw [h]
    · rw [h]
      exact parseLoop_stuck_past_end n _ [] _ (by simp [Parser.advance])

/-- Claim C8: the top-level parse loop is all-or-nothing.  From any loop
state, if the loop terminates with `Except.error l` then `l` is non-empty
and extends the diagnostics accumulated so far, and if it terminates with
`Except.ok` then the accumulated diagnostic list is empty — so
`Parser.parse` (which starts from no diagnostics) returns the statement
list only when zero diagnostics were recorded during the whole run, and
otherwise returns the non-empty diagnostic list; in particular it never
returns an error value with an empty list. -/
theorem parser_all_or_nothing :
    (∀ (fuel : Nat) (p : Parser) (stmts : List Statement) (errs : List String)
        (r : Except (List String) (List Statement)),
      parseLoop fuel p stmts errs = some r →
        (∀ l, r = .error l → l ≠ [] ∧ ∃ rest, l = errs ++ rest) ∧
        (∀ s, r = .ok s → errs = [])) ∧
    (∀ (fuel : Nat) (tokens : List Token) (l : List String),
      Parser.parse fuel tokens = some (.error l) → l ≠ []) := by
  have main : ∀ (fuel : Nat) (p : Parser) (stmts : List Statement) (errs : List String)
      (r : Except (List String) (List Statement)),
      parseLoop fuel p stmts errs = some r →
        (∀ l, r = .error l → l ≠ [] ∧ ∃ rest, l = errs ++ rest) ∧
        (∀ s, r = .ok s → errs = []) := by
    intro fuel
    induction fuel with
    | zero => intro p stmts errs r h; exact absurd h (by simp [parseLoop])
    | succ n ih =>
      intro p stmts errs r h
      rw [parseLoop] at h
      rcases hps : parseStmt n p with _ | ⟨e | stmt, p'⟩ <;> rw [hps] at h
      · exact absurd h (by simp)
      · have := ih p'.advance stmts (errs ++ [e]) r h
        refine ⟨fun l hl => ?_, fun s hs => ?_⟩
        · obtain ⟨hne, rest, hrest⟩ := this.1 l hl
          exact ⟨hne, [e] ++ rest, by simpa using hrest⟩
        · have := this.2 s hs
          simp at this
      · cases stmt with
        | Halt =>
          simp only at h
          by_cases he : errs = []
          · subst he
            simp at h
            refine ⟨fun l hl => ?_, fun s _ => rfl⟩
            rw [← h] at hl
            cases hl
          · have hlen : errs.length ≠ 0 := by simpa using he
            rw [if_pos hlen] at h
            injection h with h'
            refine ⟨fun l hl => ?_, fun s hs => ?_⟩
            · rw [← h'] at hl
              injection hl with h2
              exact ⟨by rw [← h2]; exact he, [], by simp [h2]⟩
            · rw [← h'] at hs
              cases hs
        | Return v => exact ih p' (stmts ++ [.Return v]) errs r h
        | ExpressionStatement e => exact ih p' (stmts ++ [.ExpressionStatement e]) errs r h
  refine ⟨main, fun fuel tokens l h => ?_⟩
  exact ((main fuel (Parser.new tokens) [] [] (.error l) h).1 l rfl).1

/-- Witness for `parser_all_or_nothing`: on the token stream of `;` the
parser records one diagnostic and returns it as a non-empty error list. -/
theorem parser_all_or_nothing_witness :
    (["unexpected token ';' (Semicolon) at line: 1, col: 1"] : List String) ≠ [] :=
  parser_all_or_nothing.2 10 [
    { kind := .Semicolon, literal := ";", location := { col := 1, line := 1 } },
    { kind := .EOF, literal := "", location := { col := 2, line := 1 } }]
    ["unexpected token ';' (Semicolon) at line: 1, col: 1"] rfl

/-! Helper lemmas about the string-literal scanner. -/

lemma countLeadingBackslashes_replicate_append (k : Nat) (r : List Char) :
    countLeadingBackslashes (List.replicate k '\\' ++ r) = k + countLeadingBackslashes r := by
  induction k with
  | zero => simp
  | succ k ih => simp [List.replicate_succ, countLeadingBackslashes, ih]; omega

lemma countLeadingBackslashes_eq_zero (r : List Char) (h : r.head? ≠ some '\\') :
    countLeadingBackslashes r = 0 := by
  cases r with
  | nil => rfl
  | cons c t =>
    simp at h
    simp [countLeadingBackslashes, h]

/-- `is_escaped` on a literal consisting of a boundary not ending in a
backslash, then `k` backslashes, then the just-pushed quote, reports
exactly the parity of `k`. -/
lemma isEscaped_parity (lit : List Char) (k : Nat) (h : lit.getLast? ≠ some '\\') :
    Lexer.isEscaped (lit ++ List.replicate k '\\' ++ ['"']) = (k % 2 == 1) := by
  unfold Lexer.isEscaped
  have hrev : (lit ++ List.replicate k '\\' ++ ['"']).reverse =
      '"' :: (List.replicate k '\\' ++ lit.reverse) := by
    simp [List.reverse_append]
  rw [hrev]
  simp only [List.drop_succ_cons, List.drop_zero]
  rw [countLeadingBackslashes_replicate_append,
    countLeadingBackslashes_eq_zero lit.reverse (by simpa using h)]
  simp

lemma lexer_pos_lt_of_drop (l : Lexer) (c : Char) (t : List Char)
    (h : l.src.drop l.pos = c :: t) : l.pos < l.src.length := by
  by_contra hle
  rw [List.drop_eq_nil_of_le (by omega)] at h
  cases h

lemma lexer_curr_of_drop (l : Lexer) (c : Char) (t : List Char)
    (h : l.src.drop l.pos = c :: t) : l.curr = c := by
  have hlt := lexer_pos_lt_of_drop l c t h
  have : l.src.getD l.pos (Char.ofNat 0) = c := by
    have h1 : (l.src.drop l.pos).head? = some c := by rw [h]; rfl
    rw [List.head?_drop] at h1
    simp [List.getD, h1]
  unfold Lexer.curr
  rw [if_neg (by omega)]
  exact this

lemma lexer_advance_src (l : Lexer) : l.advance.src = l.src := by
  unfold Lexer.advance
  split <;> rfl

lemma lexer_advance_pos (l : Lexer) : l.advance.pos = l.pos + 1 := by
  unfold Lexer.advance
  split <;> rfl

lemma lexer_advance_tokens (l : Lexer) : l.advance.tokens = l.tokens := by
  unfold Lexer.advance
  split <;> rfl

lemma lexer_drop_advance (l : Lexer) (c : Char) (t : List Char)
    (h : l.src.drop l.pos = c :: t) : l.advance.src.drop l.advance.pos = t := by
  rw [lexer_advance_src, lexer_advance_pos]
  have : l.src.drop (l.pos + 1) = (l.src.drop l.pos).drop 1 := by
    rw [List.drop_drop]
  rw [this, h]
  rfl

/-- The scanning loop of `lex_double_quoted_string`, on input consisting
of `k` backslashes and then a quote, with the literal accumulated so far
ending in `j` backslashes after a non-backslash boundary: it consumes all
`k + 1` characters, appends them verbatim to the literal, and closes the
string iff the total backslash count `j + k` is even. -/
lemma stringGo_backslash_run :
    ∀ (k j fuel : Nat) (lit0 rest : List Char) (l : Lexer),
      l.src.drop l.pos = List.replicate k '\\' ++ '"' :: rest →
      lit0.getLast? ≠ some '\\' →
      Lexer.stringGo (fuel + (k + 1)) (lit0 ++ List.replicate j '\\') l =
        if (j + k) % 2 = 0
        then .ok (lit0 ++ List.replicate (j + k) '\\' ++ ['"'], Lexer.advanceN (k + 1) l)
        else Lexer.stringGo fuel (lit0 ++ List.replicate (j + k) '\\' ++ ['"'])
          (Lexer.advanceN (k + 1) l) := by
  intro k
  induction k with
  | zero =>
    intro j fuel lit0 rest l hdrop hlit
    simp only [List.replicate, List.nil_append] at hdrop
    have hlt := lexer_pos_lt_of_drop l '"' rest hdrop
    have hcur := lexer_curr_of_drop l '"' rest hdrop
    rw [Lexer.stringGo, if_pos hlt, hcur]
    rw [if_neg (by decide)]
    have hesc : Lexer.isEscaped (lit0 ++ List.replicate j '\\' ++ ['"']) = (j % 2 == 1) :=
      isEscaped_parity lit0 j hlit
    have hadv1 : Lexer.advanceN 1 l = l.advance := rfl
    rcases Nat.mod_two_eq_zero_or_one j with hj | hj
    · rw [if_pos ⟨rfl, by rw [hesc]; simp [hj]⟩]
      rw [if_pos (by omega)]
      simp [hadv1]
    · rw [if_neg (by
        have hesc' := hesc
        simp only [List.append_assoc] at hesc'
        simp [hesc', hj])]
      rw [if_neg (by omega)]
      simp [hadv1]
  | succ k ih =>
    intro j fuel lit0 rest l hdrop hlit
    rw [List.replicate_succ, List.cons_append] at hdrop
    have hlt := lexer_pos_lt_of_drop l '\\' _ hdrop
    have hcur := lexer_curr_of_drop l '\\' _ hdrop
    have hstep : fuel + (k + 1 + 1) = (fuel + (k + 1)) + 1 := by omega
    rw [hstep, Lexer.stringGo, if_pos hlt, hcur]
    rw [if_neg (by decide)]
    rw [if_neg (by simp)]
    have hlit1 : (lit0 ++ List.replicate j '\\') ++ ['\\'] =
        lit0 ++ List.replicate (j + 1) '\\' := by
      rw [List.append_assoc, ← List.replicate_succ']
    rw [hlit1]
    have hdrop' := lexer_drop_advance l '\\' _ hdrop
    have h := ih (j + 1) fuel lit0 rest l.advance hdrop' hlit
    rw [h]
    have heq : j + 1 + k = j + (k + 1) := by omega
    have hadv : Lexer.advanceN (k + 1) l.advance = Lexer.advanceN (k + 1 + 1) l := rfl
    rw [heq, hadv]

/-- Claim C6: in the string-literal scanner a `"` character terminates the
literal if and only if the number of consecutive backslashes immediately
preceding it is even: with the remaining input holding `k` backslashes
then `"`, and the literal accumulated so far not ending in a backslash,
the scanner consumes exactly those `k + 1` characters verbatim into the
literal (no escape sequence is interpreted) and closes the string when
`k` is even, while for odd `k` it continues scanning past the quote. -/
theorem lexer_escaped_quote_parity (k fuel : Nat) (lit rest : List Char) (l : Lexer)
    (hsrc : l.src.drop l.pos = List.replicate k '\\' ++ '"' :: rest)
    (hlit : lit.getLast? ≠ some '\\') :
    Lexer.stringGo (fuel + (k + 1)) lit l =
      if k % 2 = 0
      then .ok (lit ++ List.replicate k '\\' ++ ['"'], Lexer.advanceN (k + 1) l)
      else Lexer.stringGo fuel (lit ++ List.replicate k '\\' ++ ['"'])
        (Lexer.advanceN (k + 1) l) := by
  have h := stringGo_backslash_run k 0 fuel lit rest l hsrc hlit
  simpa using h

/-- Witness for `lexer_escaped_quote_parity`: scanning `\\"x` from the
literal `"` — two backslashes before the quote, an even count — closes
the string with the verbatim literal `"\\"`. -/
theorem lexer_escaped_quote_parity_witness :
    Lexer.stringGo 13 ['"']
      { src := ['\\', '\\', '"', 'x'], pos := 0,
        location := { col := 1, line := 1 }, tokens := [] } =
      .ok (['"', '\\', '\\', '"'],
        Lexer.advanceN 3
          { src := ['\\', '\\', '"', 'x'], pos := 0,
            location := { col := 1, line := 1 }, tokens := [] }) := by
  have h := lexer_escaped_quote_parity 2 10 ['"'] ['x']
    { src := ['\\', '\\', '"', 'x'], pos := 0,
      location := { col := 1, line := 1 }, tokens := [] } rfl (by decide)
  simpa using h

/-! Helper lemmas for the lexer's EOF invariant: none of the scanning
helpers touches the accumulated token list, and none of them produces a
token of kind `EOF`. -/

lemma skipWsGo_tokens : ∀ (n : Nat) (l : Lexer), (Lexer.skipWsGo n l).tokens = l.tokens := by
  intro n
  induction n with
  | zero => intro l; rfl
  | succ n ih =>
    intro l
    rw [Lexer.skipWsGo]
    split
    · split
      · rw [ih, lexer_advance_tokens]
      · rfl
    · rfl

lemma skipWhitespaces_tokens (l : Lexer) : (l.skipWhitespaces).tokens = l.tokens :=
  skipWsGo_tokens _ l

lemma lineGo_tokens : ∀ (n : Nat) (l : Lexer), (Lexer.lineGo n l).tokens = l.tokens := by
  intro n
  induction n with
  | zero => intro l; rfl
  | succ n ih =>
    intro l
    rw [Lexer.lineGo]
    split
    · rw [ih, lexer_advance_tokens]
    · rfl

lemma blockGo_tokens : ∀ (n : Nat) (l l' : Lexer),
    Lexer.blockGo n l = .ok l' → l'.tokens = l.tokens := by
  intro n
  induction n with
  | zero => intro l l' h; cases h
  | succ n ih =>
    intro l l' h
    rw [Lexer.blockGo] at h
    split at h
    · split at h
      · cases h
      · split at h
        · split at h
          · rw [ih _ _ h, lexer_advance_tokens]
          · injection h with h'; rw [← h']
        · injection h with h'; rw [← h']
    · injection h with h'; rw [← h']

lemma skipCommentsGo_tokens : ∀ (n : Nat) (l l' : Lexer),
    Lexer.skipCommentsGo n l = .ok l' → l'.tokens = l.tokens := by
  intro n
  induction n with
  | zero => intro l l' h; cases h
  | succ n ih =>
    intro l l' h
    rw [Lexer.skipCommentsGo] at h
    split at h
    · split at h
      · cases h
      · split at h
        · simp only [] at h
          split at h
          · rcases hb : Lexer.blockGo (l.advance.advance.src.length + 1) l.advance.advance
              with _ | _ | e | l2
            all_goals rw [hb] at h
            all_goals simp at h
            rw [ih _ _ h, skipWhitespaces_tokens, lexer_advance_tokens,
              lexer_advance_tokens, blockGo_tokens _ _ _ hb, lexer_advance_tokens,
              lexer_advance_tokens]
          · rw [ih _ _ h, skipWhitespaces_tokens, lineGo_tokens, lexer_advance_tokens,
              lexer_advance_tokens]
        · injection h with h'; rw [← h']
    · injection h with h'; rw [← h']

lemma skipComments_tokens (l l' : Lexer) (h : l.skipComments = .ok l') :
    l'.tokens = l.tokens :=
  skipCommentsGo_tokens _ l l' h

lemma stringGo_tokens : ∀ (n : Nat) (lit : List Char) (l : Lexer) (lit' : List Char)
    (l' : Lexer), Lexer.stringGo n lit l = .ok (lit', l') → l'.tokens = l.tokens := by
  intro n
  induction n with
  | zero => intro lit l lit' l' h; cases h
  | succ n ih =>
    intro lit l lit' l' h
    rw [Lexer.stringGo] at h
    split at h
    · simp only [] at h
      split at h
      · cases h
      · split at h
        · injection h with h'
          have h2 : l' = l.advance := (congrArg Prod.snd h').symm
          rw [h2, lexer_advance_tokens]
        · rw [ih _ _ _ _ h, lexer_advance_tokens]
    · injection h with h'
      exact (congrArg Lexer.tokens (congrArg Prod.snd h')).symm

lemma idGo_tokens : ∀ (n : Nat) (lit : List Char) (l : Lexer),
    (Lexer.idGo n lit l).2.tokens = l.tokens := by
  intro n
  induction n with
  | zero => intro lit l; rfl
  | succ n ih =>
    intro lit l
    rw [Lexer.idGo]
    split
    · rw [ih, lexer_advance_tokens]
    · rfl

lemma numGo_tokens : ∀ (n : Nat) (lit : List Char) (f : Bool) (l : Lexer),
    (Lexer.numGo n lit f l).2.2.tokens = l.tokens := by
  intro n
  induction n with
  | zero => intro lit f l; rfl
  | succ n ih =>
    intro lit f l
    rw [Lexer.numGo]
    split
    · rw [ih, lexer_advance_tokens]
    · rfl

lemma lexSingleCharToken_kind (l : Lexer) (tok : Token)
    (h : l.lexSingleCharToken = .ok (some tok)) : tok.kind ≠ .EOF := by
  unfold Lexer.lexSingleCharToken at h
  simp only [] at h
  repeat' split at h
  all_goals
    first
      | (injection h with h1
         injection h1 with h2
         subst h2
         exact fun hk => TokenKind.noConfusion hk)
      | (injection h with h1
         injection h1)
      | cases h

lemma lexDoubleQuotedString_fact (l : Lexer) (tok : Token) (l' : Lexer)
    (h : l.lexDoubleQuotedString = .ok (tok, l')) :
    tok.kind = .String ∧ l'.tokens = l.tokens := by
  unfold Lexer.lexDoubleQuotedString at h
  split at h
  · cases h
  · rcases hs : Lexer.stringGo (l.src.length + 1) [l.curr] l.advance
      with _ | _ | e | ⟨lit2, l2⟩ <;> rw [hs] at h
    · cases h
    · cases h
    · cases h
    · injection h with h'
      have h1 : tok = ⟨.String, String.mk lit2, l.location⟩ := (congrArg Prod.fst h').symm
      have h2 : l' = l2 := (congrArg Prod.snd h').symm
      subst h1; subst h2
      exact ⟨rfl, by rw [stringGo_tokens _ _ _ _ _ hs, lexer_advance_tokens]⟩

lemma keywordOrIdKind_ne_eof (s : String) : Lexer.keywordOrIdKind s ≠ .EOF := by
  unfold Lexer.keywordOrIdKind
  split <;> simp

lemma lexIdOrKeyword_fact (l : Lexer) (tok : Token) (l' : Lexer)
    (h : l.lexIdOrKeyword = some (tok, l')) :
    tok.kind ≠ .EOF ∧ l'.tokens = l.tokens := by
  unfold Lexer.lexIdOrKeyword at h
  split at h
  · cases h
  · rcases hgo : Lexer.idGo (l.src.length + 1) [] l with ⟨lit2, l2⟩
    rw [hgo] at h
    injection h with h'
    have h1 : tok = ⟨Lexer.keywordOrIdKind (String.mk lit2), String.mk lit2, l.location⟩ :=
      (congrArg Prod.fst h').symm
    have h2 : l' = l2 := (congrArg Prod.snd h').symm
    subst h1; subst h2
    refine ⟨keywordOrIdKind_ne_eof _, ?_⟩
    have h3 := idGo_tokens (l.src.length + 1) [] l
    rw [hgo] at h3
    exact h3

lemma lexNumber_fact (l : Lexer) (tok : Token) (l' : Lexer)
    (h : l.lexNumber = some (tok, l')) :
    tok.kind ≠ .EOF ∧ l'.tokens = l.tokens := by
  unfold Lexer.lexNumber at h
  split at h
  · cases h
  · rcases hgo : Lexer.numGo (l.src.length + 1) [] false l with ⟨lit2, isf, l2⟩
    rw [hgo] at h
    injection h with h'
    have h1 : tok = ⟨if isf then .Float else .Int, String.mk lit2, l.location⟩ :=
      (congrArg Prod.fst h').symm
    have h2 : l' = l2 := (congrArg Prod.snd h').symm
    subst h1; subst h2
    constructor
    · split <;> exact fun hk => TokenKind.noConfusion hk
    · have h3 := numGo_tokens (l.src.length + 1) [] false l
      rw [hgo] at h3
      exact h3

/-- The main-loop invariant: starting from a state whose accumulated
token list is free of `EOF` tokens, a successful run of `lex`'s loop
exits in exactly the state computed by `lexRun` on the same fuel and
start state, and returns that exit state's accumulated list — extended
only by non-`EOF` tokens — with exactly one `EOF` token appended at the
very end carrying the exit state's location, at which point the whole
input has been consumed. -/
lemma lexLoop_eof : ∀ (fuel : Nat) (l : Lexer) (toks : List Token),
    (∀ t ∈ l.tokens, t.kind ≠ .EOF) →
    Lexer.lexLoop fuel l = .ok toks →
    ∃ l' : Lexer,
      Lexer.lexRun fuel l = .ok l' ∧
      toks = l'.tokens ++ [{ kind := .EOF, literal := "", location := l'.location }] ∧
      (∀ t ∈ l'.tokens, t.kind ≠ .EOF) ∧ l'.src.length ≤ l'.pos := by
  intro fuel
  induction fuel with
  | zero => intro l toks _ h; cases h
  | succ n ih =>
    intro l toks hinv h
    rw [Lexer.lexLoop] at h
    by_cases hpos : l.pos < l.src.length
    · rw [if_pos hpos] at h
      simp only [] at h
      rcases hsc : (l.skipWhitespaces).skipComments with _ | _ | e | l2
      · rw [hsc] at h; try simp only [] at h; try cases h
      · rw [hsc] at h; try simp only [] at h; try cases h
      · rw [hsc] at h; try simp only [] at h; try cases h
      · rw [hsc] at h; try simp only [] at h
        have hl2tok : l2.tokens = l.tokens := by
          rw [skipComments_tokens _ _ hsc, skipWhitespaces_tokens]
        have hinv2 : ∀ t ∈ l2.tokens, t.kind ≠ .EOF := by rw [hl2tok]; exact hinv
        by_cases hend : l2.src.length ≤ l2.pos
        · rw [if_pos hend] at h
          injection h with h'
          refine ⟨l2, ?_, h'.symm, hinv2, hend⟩
          rw [Lexer.lexRun, if_pos hpos]
          try simp only []
          rw [hsc]
          try simp only []
          rw [if_pos hend]
        · rw [if_neg hend] at h
          rcases hsct : l2.lexSingleCharToken with _ | _ | e | otok
          · rw [hsct] at h; try simp only [] at h; try cases h
          · rw [hsct] at h; try simp only [] at h; try cases h
          · rw [hsct] at h; try simp only [] at h; try cases h
          · rw [hsct] at h; try simp only [] at h
            cases otok with
            | some tok =>
              obtain ⟨l', hrun, ha, hb, hc⟩ := ih _ toks (by
                intro t ht
                simp only [] at ht
                rcases List.mem_append.mp ht with h1 | h1
                · exact hinv2 t h1
                · rw [List.mem_singleton.mp h1]
                  exact lexSingleCharToken_kind l2 tok hsct) h
              refine ⟨l', ?_, ha, hb, hc⟩
              rw [Lexer.lexRun, if_pos hpos]
              try simp only []
              rw [hsc]
              try simp only []
              rw [if_neg hend]
              try simp only []
              rw [hsct]
              try simp only []
              exact hrun
            | none =>
              by_cases hq : l2.curr = '"'
              · rw [if_pos hq] at h
                rcases hds : l2.lexDoubleQuotedString with _ | _ | e | ⟨tok, l3⟩
                · rw [hds] at h; try simp only [] at h; try cases h
                · rw [hds] at h; try simp only [] at h; try cases h
                · rw [hds] at h; try simp only [] at h; try cases h
                · rw [hds] at h; try simp only [] at h
                  obtain ⟨hkind, htoks⟩ := lexDoubleQuotedString_fact l2 tok l3 hds
                  obtain ⟨l', hrun, ha, hb, hc⟩ := ih _ toks (by
                    intro t ht
                    simp only [] at ht
                    rcases List.mem_append.mp ht with h1 | h1
                    · rw [htoks] at h1
                      exact hinv2 t h1
                    · rw [List.mem_singleton.mp h1, hkind]
                      exact fun hk => TokenKind.noConfusion hk) h
                  refine ⟨l', ?_, ha, hb, hc⟩
                  rw [Lexer.lexRun, if_pos hpos]
                  try simp only []
                  rw [hsc]
                  try simp only []
                  rw [if_neg hend]
                  try simp only []
                  rw [hsct]
                  try simp only []
                  rw [if_pos hq, hds]
                  try simp only []
                  exact hrun
              · rw [if_neg hq] at h
                rcases hid : (if l2.curr.isAlpha ∨ l2.curr = '_' then l2.lexIdOrKeyword
                    else none) with _ | ⟨tok, l3⟩ <;> (rw [hid] at h; try simp only [] at h)
                · rcases hnum : (if l2.curr.isDigit then l2.lexNumber else none)
                      with _ | ⟨tok, l3⟩ <;> rw [hnum] at h
                  · cases h
                  · have hnum' : l2.lexNumber = some (tok, l3) := by
                      by_cases hd : l2.curr.isDigit
                      · rwa [if_pos hd] at hnum
                      · rw [if_neg hd] at hnum; cases hnum
                    obtain ⟨hkind, htoks⟩ := lexNumber_fact l2 tok l3 hnum'
                    obtain ⟨l', hrun, ha, hb, hc⟩ := ih _ toks (by
                      intro t ht
                      simp only [] at ht
                      rcases List.mem_append.mp ht with h1 | h1
                      · rw [htoks] at h1
                        exact hinv2 t h1
                      · rw [List.mem_singleton.mp h1]
                        exact hkind) h
                    refine ⟨l', ?_, ha, hb, hc⟩
                    rw [Lexer.lexRun, if_pos hpos]
                    try simp only []
                    rw [hsc]
                    try simp only []
                    rw [if_neg hend]
                    try simp only []
                    rw [hsct]
                    try simp only []
                    rw [if_neg hq, hid]
                    try simp only []
                    rw [hnum]
                    try simp only []
                    exact hrun
                · have hid' : l2.lexIdOrKeyword = some (tok, l3) := by
                    by_cases ha : l2.curr.isAlpha ∨ l2.curr = '_'
                    · rwa [if_pos ha] at hid
                    · rw [if_neg ha] at hid; cases hid
                  obtain ⟨hkind, htoks⟩ := lexIdOrKeyword_fact l2 tok l3 hid'
                  obtain ⟨l', hrun, ha, hb, hc⟩ := ih _ toks (by
                    intro t ht
                    simp only [] at ht
                    rcases List.mem_append.mp ht with h1 | h1
                    · rw [htoks] at h1
                      exact hinv2 t h1
                    · rw [List.mem_singleton.mp h1]
                      exact hkind) h
                  refine ⟨l', ?_, ha, hb, hc⟩
                  rw [Lexer.lexRun, if_pos hpos]
                  try simp only []
                  rw [hsc]
                  try simp only []
                  rw [if_neg hend]
                  try simp only []
                  rw [hsct]
                  try simp only []
                  rw [if_neg hq, hid]
                  try simp only []
                  exact hrun
    · rw [if_neg hpos] at h
      injection h with h'
      refine ⟨l, ?_, h'.symm, hinv, by omega⟩
      rw [Lexer.lexRun, if_neg hpos]

/-- Claim C9: on every input on which `Lexer.lex` succeeds, the returned
token stream consists of non-`EOF` tokens followed by exactly one final
`EOF` token carrying the lexer's final `Location`: the run's exit state
is pinned down as the unique `l'` computed by `lexRun` on the same input
(`lexRun` is a function, so `l'` — and with it the location the `EOF`
token carries — is fully determined by `src`), the final token's location
is that state's cursor `Location`, and the whole input has been consumed
(`pos` at or past the end). -/
theorem lexer_eof_invariant (src : String) (toks : List Token)
    (h : Lexer.lex src = .ok toks) :
    ∃ l' : Lexer,
      Lexer.lexRun (src.length + 1) (Lexer.new src) = .ok l' ∧
      toks = l'.tokens ++ [{ kind := .EOF, literal := "", location := l'.location }] ∧
      (∀ t ∈ l'.tokens, t.kind ≠ .EOF) ∧ l'.src.length ≤ l'.pos :=
  lexLoop_eof (src.length + 1) (Lexer.new src) toks (by intro t ht; cases ht) h

/-- Witness for `lexer_eof_invariant` at the concrete input `1;`. -/
theorem lexer_eof_invariant_witness :
    ∃ l' : Lexer,
      Lexer.lexRun ("1;".length + 1) (Lexer.new "1;") = .ok l' ∧
      ([{ kind := .Int, literal := "1", location := { col := 1, line := 1 } },
        { kind := .Semicolon, literal := ";", location := { col := 2, line := 1 } },
        { kind := .EOF, literal := "", location := { col := 3, line := 1 } }] : List Token) =
        l'.tokens ++ [{ kind := .EOF, literal := "", location := l'.location }] ∧
      (∀ t ∈ l'.tokens, t.kind ≠ .EOF) ∧ l'.src.length ≤ l'.pos :=
  lexer_eof_invariant "1;" _ rfl
